import Mathlib

/-!
Verification development for the raspi-media-api repository.

The definitions below are a shallow embedding of the JavaScript source:

* `src/controllers/media.controller.js` (the current controller, with
  `scanMedia`/`processFile`, `upsertSeries`, `streamMedia`, toggle handlers);
* `src/utils/tmdbUtils.js` (`GENRE_MAP`, `getGenreNameById`, `mapGenres`,
  `downloadImageFromTmdb`);
* the legacy controller versions kept in the repository (older
  `fetchTmdbData` with the hyphen-stripping query extractor).

External collaborators (the TMDB HTTP client, the filesystem, the SQLite
connection) are modelled as explicit environment records; machine strings
are Lean `String`s, database rows are Lean structures, and the database
tables are lists of rows.  `path.sep` is `'/'` and the directory
configuration takes its documented defaults (`Movies`, `Series`).
-/

namespace RaspiMedia

/-! ## JavaScript-style string primitives -/

/-- Model of `String.prototype.split(c)` for a single-character separator,
operating on character lists.  Always returns a non-empty list. -/
def splitChar (c : Char) : List Char → List (List Char)
  | [] => [[]]
  | x :: xs =>
    let r := splitChar c xs
    if x = c then [] :: r
    else (x :: r.headD []) :: r.tail

/-- Model of `Array.prototype.join(c)` over character lists. -/
def joinChar (c : Char) : List (List Char) → List Char
  | [] => []
  | [x] => x
  | x :: y :: ys => x ++ c :: joinChar c (y :: ys)

/-- Characters of the string after (and excluding) the first occurrence of
`c`; empty when `c` does not occur.  This is the specification-side reading
of "drop everything up to and including the first hyphen-delimited
segment". -/
def dropThroughFirst (c : Char) : List Char → List Char
  | [] => []
  | x :: xs => if x = c then xs else dropThroughFirst c xs

/-- Model of `String.prototype.trim()`: strip whitespace from both ends. -/
def trimList (l : List Char) : List Char :=
  ((l.dropWhile Char.isWhitespace).reverse.dropWhile Char.isWhitespace).reverse

/-- Split a Lean string on a separator character, JS `split` style. -/
def jsSplit (c : Char) (s : String) : List String :=
  (splitChar c s.toList).map List.asString

/-- Containment of one character list in another, scanning left to right. -/
def isInfixL (pat : List Char) : List Char → Bool
  | [] => pat.isEmpty
  | l@(_ :: t) => pat.isPrefixOf l || isInfixL pat t

/-- Model of `String.prototype.includes(pat)`. -/
def jsIncludes (s pat : String) : Bool :=
  isInfixL pat.toList s.toList

/-- Decimal digits of a natural number, least significant first; the fuel
argument makes the recursion structural (any fuel above the digit count
gives the full digit list). -/
def natDigitsAux : Nat → Nat → List Char
  | 0, _ => []
  | fuel + 1, n =>
    if n < 10 then [Nat.digitChar n]
    else Nat.digitChar (n % 10) :: natDigitsAux fuel (n / 10)

/-- Model of JavaScript `String(n)` for a natural number. -/
def jsStringOfNat (n : Nat) : String :=
  (natDigitsAux (n + 1) n).reverse.asString

/-- Model of `parseInt(s, 10)` on a character list, restricted to inputs
whose leading characters are decimal digits; `none` stands for the `NaN`
outcome. -/
def jsParseNatL (l : List Char) : Option Nat :=
  let ds := l.takeWhile Char.isDigit
  if ds.isEmpty then none
  else some (ds.foldl (fun n c => n * 10 + (c.toNat - 48)) 0)

/-- String version of `jsParseNatL`. -/
def jsParseNat (s : String) : Option Nat :=
  jsParseNatL s.toList

/-- Basename of a `/`-separated path (`path.basename` for the slash-free
file names produced by the directory walker). -/
def basenameOf (s : String) : String :=
  ((splitChar '/' s.toList).getLastD []).asString

/-- Model of `path.parse(filename).name`: strip the extension introduced by
the last dot, unless that dot is the first character of the name. -/
def jsParseNameL (l : List Char) : List Char :=
  let tailRev := l.reverse.takeWhile (· ≠ '.')
  if tailRev.length = l.length then l
  else
    let k := l.length - tailRev.length - 1
    if k = 0 then l else l.take k

/-- String version of `jsParseNameL`. -/
def jsParseName (s : String) : String :=
  (jsParseNameL s.toList).asString

/-! ## Genre mapping (`src/utils/tmdbUtils.js`) -/

/-- The fixed `GENRE_MAP` table of `tmdbUtils.js`, as id/name pairs. -/
def genreTable : List (Nat × String) :=
  [(16, "Animation"), (18, "Drama"), (35, "Comedy"), (80, "Crime"),
   (99, "Documentary"), (10751, "Family"), (10759, "Action & Adventure"),
   (10762, "Kids"), (10763, "News"), (10764, "Reality"),
   (10765, "Sci-Fi & Fantasy"), (10766, "Soap"), (10767, "Talk"),
   (10768, "War & Politics"), (28, "Action"), (12, "Adventure"),
   (14, "Fantasy"), (27, "Horror"), (36, "History"), (53, "Thriller"),
   (10749, "Romance"), (10402, "Music"), (9648, "Mystery"),
   (878, "Science Fiction"), (37, "Western"), (10770, "TV Movie")]

/-- Embedding of `getGenreNameById`: `GENRE_MAP[id] || String(id)`.  (All
table values are non-empty strings, so the `||` fallback fires exactly when
the id is absent from the table.) -/
def getGenreNameById (id : Nat) : String :=
  match genreTable.find? (fun p => p.1 = id) with
  | some p => p.2
  | none => jsStringOfNat id

/-- Embedding of `mapGenres` from `tmdbUtils.js`:
`genreIds.map(getGenreNameById).filter(Boolean).join(', ')`.  The
`Array.isArray` guard is captured by taking a `List Nat` argument. -/
def mapGenres (ids : List Nat) : String :=
  String.intercalate ", " ((ids.map getGenreNameById).filter (· ≠ ""))

/-- Embedding of the legacy `mapGenres` of the older controller
(`genreIds.map(id => genreMap[id]).filter(Boolean).join(', ')`), which
drops ids absent from the table. -/
def mapGenresLegacy (ids : List Nat) : String :=
  String.intercalate ", "
    ((ids.map (fun id => (genreTable.find? (fun p => p.1 = id)).map (·.2))).filterMap
      (fun o => match o with
        | some n => if n = "" then none else some n
        | none => none))

/-! ## Query extraction (title extractor) -/

/-- Embedding of the legacy query derivation
(`media.controller` older revisions, `fetchTmdbData` lines 47-48):
`let query = path.parse(filename).name;`
`if (query.includes('-')) query = query.split('-').slice(1).join('-').trim();` -/
def extractQueryLegacy (filename : String) : String :=
  let q := jsParseNameL filename.toList
  if q.contains '-' then
    (trimList (joinChar '-' ((splitChar '-' q).drop 1))).asString
  else q.asString

/-- Embedding of the current controller's query derivation
(`media.controller.js` line 59): `let title = path.parse(filename).name;`
with no further processing before the provider search. -/
def extractTitleCurrent (filename : String) : String :=
  jsParseName filename

/-- Specification-side reading of the claimed extraction rule: strip the
extension; if the stem contains a hyphen, drop everything up to and
including the first hyphen and trim whitespace. -/
def specQuery (filename : String) : String :=
  let stem := jsParseNameL filename.toList
  if stem.contains '-' then (trimList (dropThroughFirst '-' stem)).asString
  else stem.asString

/-! ## Season and episode extraction (`processFile`) -/

/-- Numeric value of a list of decimal digit characters. -/
def digitsVal (l : List Char) : Nat :=
  l.foldl (fun n c => n * 10 + (c.toNat - 48)) 0

/-- Attempt the `[\s_]?(\d+)` tail of the season regex at the given
position. -/
def seasonTailMatch (rest : List Char) : Option Nat :=
  let ds := rest.takeWhile Char.isDigit
  if ds.isEmpty then
    match rest with
    | [] => none
    | c :: rest2 =>
      if c.isWhitespace ∨ c = '_' then
        let ds2 := rest2.takeWhile Char.isDigit
        if ds2.isEmpty then none else some (digitsVal ds2)
      else none
  else some (digitsVal ds)

/-- Embedding of `filepath.match(/(?:Staffel|Season)[\s_]?(\d+)/i)`:
left-to-right scan for a season marker followed by digits. -/
def findSeasonNum : List Char → Option Nat
  | [] => none
  | l@(_ :: rest) =>
    let low := l.map Char.toLower
    if "staffel".toList.isPrefixOf low then
      match seasonTailMatch (low.drop 7) with
      | some n => some n
      | none => findSeasonNum rest
    else if "season".toList.isPrefixOf low then
      match seasonTailMatch (low.drop 6) with
      | some n => some n
      | none => findSeasonNum rest
    else findSeasonNum rest

/-- Embedding of `filename.match(/E(\d+)/i)`: first `E`/`e` followed by at
least one digit. -/
def findEpisodeNum : List Char → Option Nat
  | [] => none
  | c :: rest =>
    if c = 'E' ∨ c = 'e' then
      let ds := rest.takeWhile Char.isDigit
      if ds.isEmpty then findEpisodeNum rest else some (digitsVal ds)
    else findEpisodeNum rest

/-! ## Data model: provider records and catalog rows -/

/-- A TMDB TV search result, and also the argument record of
`upsertSeries` (the fallback call passes only `name`). -/
structure SeriesData where
  name : String
  id : Option Nat := none
  original_name : Option String := none
  overview : Option String := none
  first_air_date : Option String := none
  poster_path : Option String := none
  backdrop_path : Option String := none
  genre_ids : Option (List Nat) := none
  original_language : Option String := none
  origin_country : Option (List String) := none
  popularity : Option Rat := none
  vote_average : Option Rat := none
  vote_count : Option Nat := none
  mediaType : Option String := none
  deriving Repr, DecidableEq

/-- A TMDB movie search result. -/
structure MovieData where
  title : Option String := none
  overview : Option String := none
  release_date : Option String := none
  genre_ids : Option (List Nat) := none
  original_language : Option String := none
  vote_average : Option Rat := none
  poster_path : Option String := none
  deriving Repr, DecidableEq

/-- A TMDB season episode entry. -/
structure EpisodeData where
  episode_number : Nat
  season_number : Nat := 0
  name : Option String := none
  overview : Option String := none
  air_date : Option String := none
  vote_average : Option Rat := none
  still_path : Option String := none
  deriving Repr, DecidableEq

/-- A row of the `series` table, fields as in the `INSERT INTO series`
statement of `upsertSeries`. -/
structure SeriesRow where
  id : Nat
  title : String
  original_name : String
  overview : String
  first_air_date : String
  poster_path : String
  backdrop_path : String
  genre : String
  original_language : String
  origin_country : String
  popularity : Rat
  vote_average : Rat
  vote_count : Nat
  mediaType : String
  deriving Repr, DecidableEq

/-- A row of the `media` table, fields as in the `INSERT INTO media`
statement of `processFile`. -/
structure MediaRow where
  id : Nat
  filename : String
  filepath : String
  filesize : Nat
  title : String
  description : String
  poster : String
  year : String
  genre : String
  language : String
  rating : Rat
  mediaType : String
  favorite : Bool
  watched : Bool
  playback_position : Nat
  last_played : Option String
  seriesId : Option Nat
  deriving Repr, DecidableEq

/-- The persistent catalog: the two SQLite tables plus a log of the image
downloads performed (one entry per network fetch attempted by
`downloadImageFromTmdb`).  Surrogate ids are assigned as
`table length + 1`, mirroring SQLite auto-increment for tables that are
never deleted from. -/
structure Catalog where
  series : List SeriesRow := []
  media : List MediaRow := []
  downloads : List String := []
  deriving Repr, DecidableEq

/-- External collaborators of the scan: the TMDB client (each call may
fail, modelled by `Except`), image downloads (success keyed by the remote
image path), and `fs.statSync` (`none` models a throw). -/
structure Env where
  searchMovie : String → Except String (Option MovieData)
  searchTv : String → Except String (Option SeriesData)
  getSeasonEpisodes : Nat → Nat → Except String (List EpisodeData)
  downloadOk : String → Bool
  statSize : String → Option Nat

/-! ## JavaScript falsy-or helpers -/

/-- Model of `x || d` where `x : Option String` and the empty string is
falsy. -/
def jsOrStr (o : Option String) (d : String) : String :=
  match o with
  | some s => if s = "" then d else s
  | none => d

/-- Model of `a || b` on strings (empty string falsy). -/
def jsOrStrS (a b : String) : String := if a = "" then b else a

/-- Model of `a || b` on numbers (zero falsy). -/
def jsOrRatS (a b : Rat) : Rat := if a = 0 then b else a

/-- Model of `date?.split('-')[0]` collapsed to the empty string when the
date is absent. -/
def yearOf (o : Option String) : String :=
  match o with
  | some d => ((splitChar '-' d.toList).headD []).asString
  | none => ""

/-! ## tmdbUtils: sanitizer and image download -/

/-- Run-collapsing pass of `sanitizeFolderName` (`.replace(/_+/g, '_')`):
the flag records whether the previous kept character was `_`. -/
def collapseU : Bool → List Char → List Char
  | _, [] => []
  | prev, c :: rest =>
    if c = '_' then
      if prev then collapseU true rest else '_' :: collapseU true rest
    else c :: collapseU false rest

/-- Embedding of `sanitizeFolderName` from `tmdbUtils.js`. -/
def sanitizeFolderName (s : String) : String :=
  let base := if s = "" then "unknown" else s
  let repl := base.toList.map (fun c => if c.isAlphanum then c else '_')
  let collapsed := collapseU false repl
  let stripped := ((collapsed.dropWhile (· = '_')).reverse.dropWhile (· = '_')).reverse
  (stripped.map Char.toLower).asString

/-- Embedding of `downloadImageFromTmdb`: returns the local relative path
on success and the empty string on failure, recording the attempted fetch
in the download log.  An empty image path returns immediately. -/
def downloadImageFromTmdb (env : Env) (c : Catalog)
    (imagePath filename ty mediaTitle : String) : String × Catalog :=
  if imagePath = "" then ("", c)
  else
    let c2 := {c with downloads := c.downloads ++ [imagePath ++ " as " ++ filename]}
    if env.downloadOk imagePath then
      ("/data/" ++ (if ty = "backdrop" then "backdrops" else "posters") ++ "/" ++
        sanitizeFolderName mediaTitle ++ "/" ++ filename, c2)
    else ("", c2)

/-- The `if (imagePath) { local = await downloadImageFromTmdb(...) }`
guard pattern shared by the call sites: download when the path is present
and truthy, otherwise keep the empty string and the catalog unchanged. -/
def maybeDownload (env : Env) (c : Catalog) (pp : Option String)
    (fn ty name : String) : String × Catalog :=
  match pp with
  | some p => if p ≠ "" then downloadImageFromTmdb env c p fn ty name else ("", c)
  | none => ("", c)

/-! ## upsertSeries (`media.controller.js`) -/

/-- The insert branch of `upsertSeries` (everything after the existence
check fails): map genres, join origin countries, download the poster and
backdrop when present, and insert the row.  Returns `lastID`. -/
def upsertSeriesInsert (env : Env) (d : SeriesData) (c : Catalog) : Nat × Catalog :=
  let genre := match d.genre_ids with
    | some ids => mapGenres ids
    | none => ""
  let originCountry := match d.origin_country with
    | some cs => String.intercalate "," cs
    | none => ""
  let pr := maybeDownload env c d.poster_path "poster.jpg" "poster" d.name
  let br := maybeDownload env pr.2 d.backdrop_path "backdrop.jpg" "backdrop" d.name
  let c3 := br.2
  let row : SeriesRow := {
    id := c3.series.length + 1
    title := d.name
    original_name := jsOrStr d.original_name ""
    overview := jsOrStr d.overview ""
    first_air_date := jsOrStr d.first_air_date ""
    poster_path := pr.1
    backdrop_path := br.1
    genre := genre
    original_language := jsOrStr d.original_language ""
    origin_country := originCountry
    popularity := d.popularity.getD 0
    vote_average := d.vote_average.getD 0
    vote_count := d.vote_count.getD 0
    mediaType := d.mediaType.getD "series" }
  (row.id, {c3 with series := c3.series ++ [row]})

/-- Embedding of `upsertSeries`: return the existing row's id when a row
with the same title exists, otherwise insert. -/
def upsertSeries (env : Env) (d : SeriesData) (c : Catalog) : Nat × Catalog :=
  match c.series.find? (fun s => s.title = d.name) with
  | some s => (s.id, c)
  | none => upsertSeriesInsert env d c

/-! ## Provider fetch wrappers and fetchTmdbData -/

/-- Embedding of `fetchTmdbSeriesData`: a provider error or an empty
result list both collapse to `null`. -/
def fetchTmdbSeriesData (env : Env) (seriesTitle : String) : Option SeriesData :=
  match env.searchTv seriesTitle with
  | .ok r => r
  | .error _ => none

/-- Embedding of `fetchTmdbEpisodeData`: locate the entry with the given
episode number; errors collapse to `null`. -/
def fetchTmdbEpisodeData (env : Env) (seriesId seasonNumber episodeNumber : Nat) :
    Option EpisodeData :=
  match env.getSeasonEpisodes seriesId seasonNumber with
  | .ok eps => eps.find? (fun ep => ep.episode_number = episodeNumber)
  | .error _ => none

/-- Poster resolution of the series branch of `fetchTmdbData`: prefer the
episode's still image (`if (episodeMeta?.still_path)`), else fall back to
the series poster. -/
def seriesPosterRes (env : Env) (c : Catalog) (sm : SeriesData)
    (em : Option EpisodeData) (mediaTitle : String) : String × Catalog :=
  match em with
  | some ep =>
    if ep.still_path.getD "" ≠ "" then
      downloadImageFromTmdb env c (ep.still_path.getD "")
        ("S" ++ jsStringOfNat ep.season_number ++ "E" ++
          jsStringOfNat ep.episode_number ++ ".jpg") "poster" mediaTitle
    else maybeDownload env c sm.poster_path "poster.jpg" "poster" mediaTitle
  | none => maybeDownload env c sm.poster_path "poster.jpg" "poster" mediaTitle

/-- The metadata record returned by `fetchTmdbData`. -/
structure MediaMeta where
  title : String
  description : String := ""
  poster : String := ""
  year : String := ""
  genre : String := ""
  language : String := ""
  rating : Rat := 0
  mediaType : String := ""
  deriving Repr, DecidableEq

/-- Embedding of the current controller's `fetchTmdbData`
(`media.controller.js` lines 55-125). -/
def fetchTmdbData (env : Env) (filename filepath : String)
    (seriesMeta : Option SeriesData) (episodeMeta : Option EpisodeData)
    (c : Catalog) : MediaMeta × Catalog :=
  let isMovie := jsIncludes filepath "/Movies/"
  let isSeries := jsIncludes filepath "/Series/"
  let title0 := jsParseName filename
  let mt := if isMovie then "movie" else if isSeries then "tv" else ""
  if isMovie then
    match env.searchMovie title0 with
    | .error _ => ({title := title0, mediaType := mt}, c)
    | .ok none => ({title := title0, mediaType := mt}, c)
    | .ok (some r) =>
      let title := jsOrStr r.title title0
      let description := jsOrStr r.overview ""
      let year := yearOf r.release_date
      let genre := match r.genre_ids with
        | some ids => mapGenres ids
        | none => ""
      let language := jsOrStr r.original_language ""
      let rating := match r.vote_average with
        | some v => v
        | none => 0
      let pres := maybeDownload env c r.poster_path "poster.jpg" "poster" title
      ({title := title, description := description, poster := pres.1, year := year,
        genre := genre, language := language, rating := rating, mediaType := mt}, pres.2)
  else
    match seriesMeta with
    | some sm =>
      if isSeries then
        let mediaTitle := jsOrStrS sm.name title0
        let epName := match episodeMeta with
          | some ep => jsOrStr ep.name ""
          | none => ""
        let title := jsOrStrS epName mediaTitle
        let epOverview := match episodeMeta with
          | some ep => jsOrStr ep.overview ""
          | none => ""
        let description := jsOrStrS epOverview (jsOrStr sm.overview "")
        let epYear := match episodeMeta with
          | some ep => yearOf ep.air_date
          | none => ""
        let year := jsOrStrS epYear (yearOf sm.first_air_date)
        let genre := match sm.genre_ids with
          | some ids => mapGenres ids
          | none => ""
        let language := jsOrStr sm.original_language ""
        let epRating : Rat := match episodeMeta with
          | some ep => ep.vote_average.getD 0
          | none => 0
        let rating := jsOrRatS epRating (sm.vote_average.getD 0)
        let pres := seriesPosterRes env c sm episodeMeta mediaTitle
        ({title := title, description := description, poster := pres.1, year := year,
          genre := genre, language := language, rating := rating, mediaType := mt}, pres.2)
      else ({title := title0, mediaType := mt}, c)
    | none => ({title := title0, mediaType := mt}, c)

/-! ## processFile and scanMedia -/

/-- Per-file outcome of `processFile` (`status` field of its result
object). -/
inductive FileOutcome where
  | processed
  | skipped
  | fileError
  deriving Repr, DecidableEq

/-- The series-name extraction of `processFile`: the path segment right
after the `Series` segment, with JS `null` and the falsy empty string
collapsed to `""`. -/
def seriesNameOf (filepath : String) : String :=
  let parts := jsSplit '/' filepath
  match parts.findIdx? (fun p => p = "Series") with
  | some i => if i + 1 < parts.length then parts.getD (i + 1) "" else ""
  | none => ""

/-- The series handling block of `processFile` (lines 259-278): extract
name/season/episode, search the provider, upsert the series (minimal
fallback record when the search yields nothing), and fetch the episode
entry.  Returns the updated catalog, the bound `seriesId`, and the
`seriesMeta`/`episodeMeta` values passed on to `fetchTmdbData`. -/
def seriesResolve (env : Env) (c : Catalog) (filepath filename : String) :
    Catalog × Option Nat × Option SeriesData × Option EpisodeData :=
  let seasonNumber := (findSeasonNum filepath.toList).getD 1
  let episodeNumber := (findEpisodeNum filename.toList).getD 1
  let seriesName := seriesNameOf filepath
  if seriesName ≠ "" then
    match fetchTmdbSeriesData env seriesName with
    | some sm =>
      let ur := upsertSeries env sm c
      let em := match sm.id with
        | some tmdbId => fetchTmdbEpisodeData env tmdbId seasonNumber episodeNumber
        | none => none
      (ur.2, some ur.1, some sm, em)
    | none =>
      let ur := upsertSeries env {name := seriesName} c
      (ur.2, some ur.1, none, none)
  else (c, none, none, none)

/-- The media row inserted by `processFile` (the `INSERT INTO media`
statement), with the surrogate id assigned by the store. -/
def mkMediaRow (c2 : Catalog) (filename filepath : String) (filesize : Nat)
    (meta : MediaMeta) (seriesId : Option Nat) : MediaRow where
  id := c2.media.length + 1
  filename := filename
  filepath := filepath
  filesize := filesize
  title := meta.title
  description := meta.description
  poster := meta.poster
  year := meta.year
  genre := meta.genre
  language := meta.language
  rating := meta.rating
  mediaType := meta.mediaType
  favorite := false
  watched := false
  playback_position := 0
  last_played := none
  seriesId := seriesId

/-- Body of `processFile` after the dedup check and the `statSync` call
succeeded: resolve the series context, fetch metadata, insert the row. -/
def processFileCore (env : Env) (c : Catalog) (filepath : String)
    (filesize : Nat) : Catalog × FileOutcome :=
  let filename := basenameOf filepath
  let sres :=
    if jsIncludes filepath "/Series/" then seriesResolve env c filepath filename
    else (c, (none : Option Nat), (none : Option SeriesData), (none : Option EpisodeData))
  let fres := fetchTmdbData env filename filepath sres.2.2.1 sres.2.2.2 sres.1
  ({fres.2 with media :=
      fres.2.media ++ [mkMediaRow fres.2 filename filepath filesize fres.1 sres.2.1]},
   .processed)

/-- Embedding of `processFile` (`media.controller.js` lines 247-308),
executed atomically (the sequential semantics of one reconciliation
task): skip when the filepath is already cataloged, fail the file when
`statSync` throws, otherwise reconcile and insert. -/
def processFile (env : Env) (c : Catalog) (filepath : String) : Catalog × FileOutcome :=
  if c.media.any (fun r => r.filepath = filepath) then (c, .skipped)
  else
    match env.statSize filepath with
    | none => (c, .fileError)
    | some filesize => processFileCore env c filepath filesize

/-- Sequential run of the per-file tasks over the discovered file list
(one schedule of the `Promise.allSettled` fan-out). -/
def scanFiles (env : Env) (c : Catalog) : List String → Catalog × List FileOutcome
  | [] => (c, [])
  | f :: fs =>
    let r1 := processFile env c f
    let r2 := scanFiles env r1.1 fs
    (r2.1, r1.2 :: r2.2)

/-- Scan-level HTTP outcome. -/
inductive ScanResponse where
  | failure (status : Nat) (message : String)
  | success (message : String)
  deriving Repr, DecidableEq

/-- Number of outcomes equal to `o`. -/
def countOutcome (outs : List FileOutcome) (o : FileOutcome) : Nat :=
  (outs.filter (· = o)).length

/-- Embedding of the scan result aggregation
(`media.controller.js` lines 310-322): `if (errors && !processed)` fail
with 500, otherwise send the summary message. -/
def scanResponseOf (processed errors : Nat) : ScanResponse :=
  if errors ≠ 0 ∧ processed = 0 then
    .failure 500 "Media scan completed with errors: All files failed to process"
  else if errors ≠ 0 then
    .success (s!"Media scan completed: {processed} files processed, {errors} files failed")
  else
    .success (s!"Media scan completed: {processed} files processed successfully")

/-- The file-processing phase of `scanMedia`: run every task, count the
outcomes, and build the response. -/
def scanMedia (env : Env) (c : Catalog) (allFiles : List String) :
    Catalog × ScanResponse :=
  let r := scanFiles env c allFiles
  (r.1, scanResponseOf (countOutcome r.2 .processed) (countOutcome r.2 .fileError))

/-! ## Streaming responder (`streamMedia`) -/

/-- Filesystem view for streaming: the byte content of a path, `none`
when `fs.statSync` would throw. -/
structure FsEnv where
  content : String → Option (List Nat)

/-- The response written by `streamMedia`: 404 for an unknown id, 500 when
the file cannot be read, 206 with `Content-Range`/`Content-Length` headers
for a range request, 200 with the whole file otherwise. -/
inductive StreamResponse where
  | notFound (status : Nat) (message : String)
  | streamError (status : Nat) (message : String)
  | partialContent (start endByte : Int) (totalSize : Nat) (contentLength : Int)
      (body : List Nat)
  | fullContent (contentLength : Nat) (body : List Nat)
  deriving Repr, DecidableEq

/-- HTTP status of a stream response. -/
def StreamResponse.status : StreamResponse → Nat
  | .notFound s _ => s
  | .streamError s _ => s
  | .partialContent _ _ _ _ _ => 206
  | .fullContent _ _ => 200

/-- Declared `Content-Length` of a stream response. -/
def StreamResponse.declaredLength : StreamResponse → Option Int
  | .partialContent _ _ _ cl _ => some cl
  | .fullContent cl _ => some (cl : Int)
  | _ => none

/-- Body bytes of a stream response. -/
def StreamResponse.bodyBytes : StreamResponse → List Nat
  | .partialContent _ _ _ _ b => b
  | .fullContent _ b => b
  | _ => []

/-- Total size declared in the `Content-Range` header, when present. -/
def StreamResponse.declaredTotal : StreamResponse → Option Nat
  | .partialContent _ _ t _ _ => some t
  | _ => none

/-- Embedding of the range-header parsing of `streamMedia`
(lines 345-347): strip `bytes=`, split on `-`, `parseInt` both parts; an
absent or empty end part means "to end of file".  Headers whose parts are
not decimal numbers (the `NaN` cases) are outside the model and return
`none`. -/
def parseRangeHeader (h : String) : Option (Nat × Option Nat) :=
  let hl := h.toList
  let r := if "bytes=".toList.isPrefixOf hl then hl.drop 6 else hl
  match splitChar '-' r with
  | [] => none
  | s :: rest =>
    match jsParseNatL s with
    | none => none
    | some start =>
      match rest.head? with
      | none => some (start, none)
      | some [] => some (start, none)
      | some es => (jsParseNatL es).map (fun e => (start, some e))

/-- Embedding of `streamMedia` (`media.controller.js` lines 332-370).  The
`range` argument is the parsed `(start, end?)` pair of the range header
(`none` when no range header was sent).  The handler itself performs no
bounds validation, but `fs.createReadStream(filepath, {start, end})` —
called before `writeHead(206, ...)` — does: Node's `ReadStream`
constructor throws `ERR_OUT_OF_RANGE` synchronously when `start > end`,
and the handler's try/catch converts that throw into the 500 error
response.  For `start ≤ end` no validation against the file size happens:
the stream is created and yields whatever bytes of the requested span
exist, modelled as the slice of the file bytes. -/
def streamMedia (fs : FsEnv) (c : Catalog) (id : Nat)
    (range : Option (Nat × Option Nat)) : StreamResponse :=
  match c.media.find? (fun r => r.id = id) with
  | none => .notFound 404 "Media not found"
  | some m =>
    match fs.content m.filepath with
    | none => .streamError 500 "Error streaming media"
    | some bytes =>
      let fileSize := bytes.length
      match range with
      | some se =>
        let start := se.1
        let endByte : Int := match se.2 with
          | some e => (e : Int)
          | none => (fileSize : Int) - 1
        if (start : Int) > endByte then .streamError 500 "Error streaming media"
        else
          let chunkSize : Int := endByte - (start : Int) + 1
          .partialContent (start : Int) endByte fileSize chunkSize
            ((bytes.drop start).take chunkSize.toNat)
      | none => .fullContent fileSize bytes

/-! ## Toggle handlers -/

/-- JSON `{message}` response with an HTTP status. -/
structure ToggleResponse where
  status : Nat
  message : String
  deriving Repr, DecidableEq

/-- Embedding of `toggleFavorite`:
`UPDATE media SET favorite = NOT favorite WHERE id = ?` followed by an
unconditional 200 response. -/
def toggleFavorite (c : Catalog) (id : Nat) : Catalog × ToggleResponse :=
  ({c with media := c.media.map (fun r =>
      if r.id = id then {r with favorite := !r.favorite} else r)},
   {status := 200, message := "Favorite status toggled"})

/-- Embedding of `toggleWatched`:
`UPDATE media SET watched = NOT watched WHERE id = ?` followed by an
unconditional 200 response. -/
def toggleWatched (c : Catalog) (id : Nat) : Catalog × ToggleResponse :=
  ({c with media := c.media.map (fun r =>
      if r.id = id then {r with watched := !r.watched} else r)},
   {status := 200, message := "Watched status toggled"})

/-! ## Interleaved execution of per-file tasks

`scanMedia` runs `processFile` for all discovered files concurrently under
`Promise.allSettled`; every `await` inside a task is a point where other
tasks may run.  The model below records each task's database operations as
atomic steps separated by those await points: the `media` existence check,
the `series` existence check of `upsertSeries`, the series insert (the
decision to insert uses the value recorded by the earlier check, exactly
as the source's `existing` variable does), and the media insert.  A
schedule chooses which task performs its next step; not scheduling a task
any further also covers tasks that die with an error mid-way. -/

/-- One in-flight `processFile` task.  `sdata` is the series record the
task will upsert (the provider search result, or the minimal fallback
record), `mediaMeta` the `fetchTmdbData` result for the file; both depend
only on the provider environment, not on the catalog, and are therefore
precomputed.  `pc` is the program counter: 0 = before the media existence
check, 1 = before the series existence check, 2 = before the series
insert-or-bind, 3 = before the media insert, 4 = finished. -/
structure STask where
  filepath : String
  filename : String
  filesize : Nat
  isSeries : Bool
  sdata : SeriesData
  mediaMeta : MediaMeta
  pc : Nat := 0
  foundSeries : Option (Option Nat) := none
  seriesId : Option Nat := none
  deriving Repr, DecidableEq

/-- The media row a task inserts at its final step, mirroring the
`INSERT INTO media` of `processFile`. -/
def STask.rowFor (t : STask) (c : Catalog) : MediaRow :=
  { id := c.media.length + 1
    filename := t.filename
    filepath := t.filepath
    filesize := t.filesize
    title := t.mediaMeta.title
    description := t.mediaMeta.description
    poster := t.mediaMeta.poster
    year := t.mediaMeta.year
    genre := t.mediaMeta.genre
    language := t.mediaMeta.language
    rating := t.mediaMeta.rating
    mediaType := t.mediaMeta.mediaType
    favorite := false
    watched := false
    playback_position := 0
    last_played := none
    seriesId := t.seriesId }

/-- One atomic step of a task against the shared catalog. -/
def stepTask (env : Env) (c : Catalog) (t : STask) : Catalog × STask :=
  match t.pc with
  | 0 =>
    if c.media.any (fun r => r.filepath = t.filepath) then (c, {t with pc := 4})
    else (c, {t with pc := if t.isSeries then 1 else 3})
  | 1 =>
    (c, {t with
      foundSeries := some ((c.series.find? (fun s => s.title = t.sdata.name)).map (·.id)),
      pc := 2})
  | 2 =>
    (match t.foundSeries with
     | some (some i) => (c, {t with seriesId := some i, pc := 3})
     | some none =>
       let r := upsertSeriesInsert env t.sdata c
       (r.2, {t with seriesId := some r.1, pc := 3})
     | none => (c, {t with pc := 3}))
  | 3 =>
    ({c with media := c.media ++ [t.rowFor c]}, {t with pc := 4})
  | _ => (c, t)

/-- Run a schedule: each entry names the task that performs its next
step (out-of-range entries are ignored). -/
def runSched (env : Env) : List Nat → Catalog → List STask → Catalog × List STask
  | [], c, ts => (c, ts)
  | i :: rest, c, ts =>
    match ts.get? i with
    | none => runSched env rest c ts
    | some t =>
      let r := stepTask env c t
      runSched env rest r.1 (ts.set i r.2)

/-! ## Concrete sample environments and inputs used by witnesses -/

/-- Provider environment in which every lookup returns an empty result
list, every download fails, and every file stats to 1000 bytes. -/
def sampleEnvNoMatch : Env where
  searchMovie := fun _ => .ok none
  searchTv := fun _ => .ok none
  getSeasonEpisodes := fun _ _ => .error "network error"
  downloadOk := fun _ => false
  statSize := fun _ => some 1000

/-- Provider environment for the partial-failure witness: `B.mp4`'s stat
throws while every other file stats fine; all lookups return no match. -/
def sampleEnvHalf : Env where
  searchMovie := fun _ => .ok none
  searchTv := fun _ => .ok none
  getSeasonEpisodes := fun _ _ => .error "network error"
  downloadOk := fun _ => false
  statSize := fun p =>
    if p = "/mnt/nas/Homeflix/Movies/B.mp4" then none else some 500

/-- A cataloged media row used by the streaming witnesses. -/
def sampleRow : MediaRow where
  id := 1
  filename := "f.mp4"
  filepath := "/m/f.mp4"
  filesize := 300
  title := "t"
  description := ""
  poster := ""
  year := ""
  genre := ""
  language := ""
  rating := 0
  mediaType := "movie"
  favorite := false
  watched := false
  playback_position := 0
  last_played := none
  seriesId := none

/-- Catalog holding exactly `sampleRow`. -/
def sampleCatalog : Catalog := {media := [sampleRow]}

/-- Filesystem in which `sampleRow`'s file holds 300 bytes. -/
def sampleFs : FsEnv :=
  ⟨fun p => if p = "/m/f.mp4" then some (List.range 300) else none⟩

/-- A pre-existing `series` row used by the upsert frame witness. -/
def showXRow : SeriesRow where
  id := 7
  title := "ShowX"
  original_name := ""
  overview := ""
  first_air_date := ""
  poster_path := ""
  backdrop_path := ""
  genre := ""
  original_language := ""
  origin_country := ""
  popularity := 0
  vote_average := 0
  vote_count := 0
  mediaType := "series"

/-- First task of the series-upsert race scenario: episode 1 of the new
series `ShowX`. -/
def raceTask0 : STask where
  filepath := "/mnt/nas/Homeflix/Series/ShowX/Season 1/E01.mp4"
  filename := "E01.mp4"
  filesize := 1000
  isSeries := true
  sdata := {name := "ShowX"}
  mediaMeta := {title := "E01", mediaType := "tv"}

/-- Second task of the race scenario: episode 2 of the same new series. -/
def raceTask1 : STask where
  filepath := "/mnt/nas/Homeflix/Series/ShowX/Season 1/E02.mp4"
  filename := "E02.mp4"
  filesize := 1000
  isSeries := true
  sdata := {name := "ShowX"}
  mediaMeta := {title := "E02", mediaType := "tv"}

/-- Invariant of the interleaved scan: media filepaths are duplicate-free,
the in-flight tasks have pairwise-distinct filepaths, and a task that has
passed its media existence check but not yet inserted its row has a
filepath absent from the media table. -/
def TasksInv (c : Catalog) (ts : List STask) : Prop :=
  (c.media.map (·.filepath)).Nodup ∧
  (ts.map (·.filepath)).Nodup ∧
  ∀ t ∈ ts, 1 ≤ t.pc → t.pc ≤ 3 → ∀ r ∈ c.media, r.filepath ≠ t.filepath

/-- Count of outcomes that denote an attempted (non-skipped) file. -/
def attemptedCount (outs : List FileOutcome) : Nat :=
  (outs.filter (· ≠ FileOutcome.skipped)).length

/-! ## Basic string lemmas -/

theorem splitChar_ne_nil (c : Char) (l : List Char) : splitChar c l ≠ [] := by
  cases l with
  | nil => simp [splitChar]
  | cons x xs =>
    simp only [splitChar]
    split <;> simp

theorem joinChar_splitChar (c : Char) (l : List Char) :
    joinChar c (splitChar c l) = l := by
  induction l with
  | nil => rfl
  | cons x xs ih =>
    have hne := splitChar_ne_nil c xs
    by_cases hx : x = c
    · subst hx
      simp only [splitChar, if_pos rfl]
      cases hsp : splitChar x xs with
      | nil => exact absurd hsp hne
      | cons h t =>
        rw [hsp] at ih
        cases t with
        | nil => simpa [joinChar] using ih
        | cons t0 ts => simpa [joinChar] using ih
    · simp only [splitChar, if_neg hx]
      cases hsp : splitChar c xs with
      | nil => exact absurd hsp hne
      | cons h t =>
        rw [hsp] at ih
        cases t with
        | nil => simpa [joinChar] using ih
        | cons t0 ts => simpa [joinChar] using ih

theorem joinChar_drop_one_splitChar (c : Char) (l : List Char) :
    joinChar c ((splitChar c l).drop 1) = dropThroughFirst c l := by
  induction l with
  | nil => rfl
  | cons x xs ih =>
    simp only [splitChar, dropThroughFirst]
    have hne := splitChar_ne_nil c xs
    split
    · simpa using joinChar_splitChar c xs
    · cases hsp : splitChar c xs with
      | nil => exact absurd hsp hne
      | cons h t =>
        rw [hsp] at ih
        simpa using ih

theorem natDigitsAux_succ_ne_nil (fuel n : Nat) :
    natDigitsAux (fuel + 1) n ≠ [] := by
  unfold natDigitsAux
  split <;> simp

theorem jsStringOfNat_ne_empty (n : Nat) : jsStringOfNat n ≠ "" := by
  intro h
  have h2 : (natDigitsAux (n + 1) n).reverse = ([] : List Char) :=
    congrArg String.toList h
  have h3 := natDigitsAux_succ_ne_nil n n
  simp at h2
  exact h3 h2

theorem getGenreNameById_ne_empty (id : Nat) : getGenreNameById id ≠ "" := by
  unfold getGenreNameById
  cases hfind : genreTable.find? (fun p => p.1 = id) with
  | none => exact jsStringOfNat_ne_empty id
  | some p =>
    have hmem := List.mem_of_find?_eq_some hfind
    fin_cases hmem <;> simp

/-! ## Preservation lemmas for the catalog tables -/

theorem downloadImageFromTmdb_media (env : Env) (c : Catalog)
    (p f ty m : String) :
    (downloadImageFromTmdb env c p f ty m).2.media = c.media := by
  unfold downloadImageFromTmdb
  split
  · rfl
  · split <;> rfl

theorem downloadImageFromTmdb_series (env : Env) (c : Catalog)
    (p f ty m : String) :
    (downloadImageFromTmdb env c p f ty m).2.series = c.series := by
  unfold downloadImageFromTmdb
  split
  · rfl
  · split <;> rfl

theorem maybeDownload_media (env : Env) (c : Catalog) (pp : Option String)
    (fn ty name : String) :
    (maybeDownload env c pp fn ty name).2.media = c.media := by
  unfold maybeDownload
  cases pp with
  | none => rfl
  | some p =>
    simp only
    split
    · exact downloadImageFromTmdb_media env c p fn ty name
    · rfl

theorem maybeDownload_series (env : Env) (c : Catalog) (pp : Option String)
    (fn ty name : String) :
    (maybeDownload env c pp fn ty name).2.series = c.series := by
  unfold maybeDownload
  cases pp with
  | none => rfl
  | some p =>
    simp only
    split
    · exact downloadImageFromTmdb_series env c p fn ty name
    · rfl

theorem upsertSeriesInsert_spec (env : Env) (d : SeriesData) (c : Catalog) :
    (upsertSeriesInsert env d c).2.media = c.media ∧
    (upsertSeriesInsert env d c).2.series.map (·.title) =
      c.series.map (·.title) ++ [d.name] := by
  unfold upsertSeriesInsert
  simp only
  constructor
  · rw [maybeDownload_media, maybeDownload_media]
  · simp only [List.map_append, List.map_cons, List.map_nil]
    rw [maybeDownload_series, maybeDownload_series]

theorem upsertSeries_media (env : Env) (d : SeriesData) (c : Catalog) :
    (upsertSeries env d c).2.media = c.media := by
  unfold upsertSeries
  cases c.series.find? (fun s => s.title = d.name) with
  | some s => rfl
  | none => exact (upsertSeriesInsert_spec env d c).1

theorem seriesPosterRes_media (env : Env) (c : Catalog) (sm : SeriesData)
    (em : Option EpisodeData) (mediaTitle : String) :
    (seriesPosterRes env c sm em mediaTitle).2.media = c.media := by
  unfold seriesPosterRes
  cases em with
  | none => exact maybeDownload_media ..
  | some ep =>
    simp only
    split
    · exact downloadImageFromTmdb_media ..
    · exact maybeDownload_media ..

theorem seriesPosterRes_series (env : Env) (c : Catalog) (sm : SeriesData)
    (em : Option EpisodeData) (mediaTitle : String) :
    (seriesPosterRes env c sm em mediaTitle).2.series = c.series := by
  unfold seriesPosterRes
  cases em with
  | none => exact maybeDownload_series ..
  | some ep =>
    simp only
    split
    · exact downloadImageFromTmdb_series ..
    · exact maybeDownload_series ..

theorem fetchTmdbData_media (env : Env) (fn fp : String)
    (sm : Option SeriesData) (em : Option EpisodeData) (c : Catalog) :
    (fetchTmdbData env fn fp sm em c).2.media = c.media := by
  unfold fetchTmdbData
  simp only
  split
  · split
    · rfl
    · rfl
    · exact maybeDownload_media ..
  · cases sm with
    | some s =>
      simp only
      split
      · exact seriesPosterRes_media ..
      · rfl
    | none => rfl

theorem fetchTmdbData_series (env : Env) (fn fp : String)
    (sm : Option SeriesData) (em : Option EpisodeData) (c : Catalog) :
    (fetchTmdbData env fn fp sm em c).2.series = c.series := by
  unfold fetchTmdbData
  simp only
  split
  · split
    · rfl
    · rfl
    · exact maybeDownload_series ..
  · cases sm with
    | some s =>
      simp only
      split
      · exact seriesPosterRes_series ..
      · rfl
    | none => rfl

theorem upsertSeries_titles_nodup (env : Env) (d : SeriesData) (c : Catalog)
    (h : (c.series.map (·.title)).Nodup) :
    ((upsertSeries env d c).2.series.map (·.title)).Nodup := by
  unfold upsertSeries
  cases hf : c.series.find? (fun s => s.title = d.name) with
  | some s => exact h
  | none =>
    rw [(upsertSeriesInsert_spec env d c).2]
    have habs : d.name ∉ c.series.map (·.title) := by
      intro hmem
      rcases List.mem_map.mp hmem with ⟨s, hs, hst⟩
      have := List.find?_eq_none.mp hf s hs
      simp [hst] at this
    rw [List.nodup_append]
    refine ⟨h, List.nodup_singleton _, ?_⟩
    intro a ha hb
    simp only [List.mem_singleton] at hb
    subst hb
    exact habs ha

theorem seriesResolve_media (env : Env) (c : Catalog) (fp fn : String) :
    (seriesResolve env c fp fn).1.media = c.media := by
  unfold seriesResolve
  simp only
  split
  · split
    · exact upsertSeries_media env _ c
    · exact upsertSeries_media env _ c
  · rfl

theorem seriesResolve_titles_nodup (env : Env) (c : Catalog) (fp fn : String)
    (h : (c.series.map (·.title)).Nodup) :
    ((seriesResolve env c fp fn).1.series.map (·.title)).Nodup := by
  unfold seriesResolve
  simp only
  split
  · split
    · exact upsertSeries_titles_nodup env _ c h
    · exact upsertSeries_titles_nodup env _ c h
  · exact h

theorem processFileCore_outcome (env : Env) (c : Catalog) (fp : String)
    (sz : Nat) : (processFileCore env c fp sz).2 = .processed := rfl

theorem processFileCore_fps (env : Env) (c : Catalog) (fp : String) (sz : Nat) :
    (processFileCore env c fp sz).1.media.map (·.filepath) =
      c.media.map (·.filepath) ++ [fp] := by
  unfold processFileCore
  simp only [List.map_append]
  rw [fetchTmdbData_media]
  by_cases hs : jsIncludes fp "/Series/" = true
  · simp only [hs, if_true]
    rw [seriesResolve_media]
    rfl
  · simp only [hs, if_false]
    rfl

theorem processFileCore_titles_nodup (env : Env) (c : Catalog) (fp : String)
    (sz : Nat) (h : (c.series.map (·.title)).Nodup) :
    ((processFileCore env c fp sz).1.series.map (·.title)).Nodup := by
  unfold processFileCore
  simp only
  rw [fetchTmdbData_series]
  by_cases hs : jsIncludes fp "/Series/" = true
  · simp only [hs, if_true]
    exact seriesResolve_titles_nodup env c fp _ h
  · simp only [hs, if_false]
    exact h

theorem processFile_skipped (env : Env) (c : Catalog) (fp : String)
    (h : c.media.any (fun r => r.filepath = fp) = true) :
    processFile env c fp = (c, .skipped) := by
  unfold processFile
  simp [h]

theorem processFile_fileError (env : Env) (c : Catalog) (fp : String)
    (h1 : c.media.any (fun r => r.filepath = fp) = false)
    (h2 : env.statSize fp = none) :
    processFile env c fp = (c, .fileError) := by
  unfold processFile
  simp [h1, h2]

theorem processFile_cases (env : Env) (c : Catalog) (fp : String) :
    (c.media.any (fun r => r.filepath = fp) = true ∧
      processFile env c fp = (c, .skipped)) ∨
    (c.media.any (fun r => r.filepath = fp) = false ∧
      env.statSize fp = none ∧ processFile env c fp = (c, .fileError)) ∨
    (∃ sz, c.media.any (fun r => r.filepath = fp) = false ∧
      env.statSize fp = some sz ∧
      processFile env c fp = processFileCore env c fp sz) := by
  by_cases h1 : c.media.any (fun r => r.filepath = fp) = true
  · exact Or.inl ⟨h1, processFile_skipped env c fp h1⟩
  · have h1f : c.media.any (fun r => r.filepath = fp) = false :=
      Bool.eq_false_iff.mpr h1
    cases h2 : env.statSize fp with
    | none => exact Or.inr (Or.inl ⟨h1f, rfl, processFile_fileError env c fp h1f h2⟩)
    | some sz =>
      refine Or.inr (Or.inr ⟨sz, h1f, rfl, ?_⟩)
      unfold processFile
      simp [h1f, h2]

theorem processFile_fps_nodup (env : Env) (c : Catalog) (fp : String)
    (h : (c.media.map (·.filepath)).Nodup) :
    ((processFile env c fp).1.media.map (·.filepath)).Nodup := by
  rcases processFile_cases env c fp with ⟨_, heq⟩ | ⟨_, _, heq⟩ | ⟨sz, hany, hsz, heq⟩
  · rw [heq]; exact h
  · rw [heq]; exact h
  · rw [heq, processFileCore_fps]
    have habs : fp ∉ c.media.map (·.filepath) := by
      intro hmem
      rcases List.mem_map.mp hmem with ⟨r, hr, hrfp⟩
      have := List.any_eq_false.mp hany r hr
      simp [hrfp] at this
    rw [List.nodup_append]
    refine ⟨h, List.nodup_singleton _, ?_⟩
    intro a ha hb
    simp only [List.mem_singleton] at hb
    subst hb
    exact habs ha

theorem processFile_titles_nodup (env : Env) (c : Catalog) (fp : String)
    (h : (c.series.map (·.title)).Nodup) :
    ((processFile env c fp).1.series.map (·.title)).Nodup := by
  rcases processFile_cases env c fp with ⟨_, heq⟩ | ⟨_, _, heq⟩ | ⟨sz, hany, hsz, heq⟩
  · rw [heq]; exact h
  · rw [heq]; exact h
  · rw [heq]; exact processFileCore_titles_nodup env c fp sz h

theorem processFile_fps_mono (env : Env) (c : Catalog) (fp : String)
    (x : String) (hx : x ∈ c.media.map (·.filepath)) :
    x ∈ (processFile env c fp).1.media.map (·.filepath) := by
  rcases processFile_cases env c fp with ⟨_, heq⟩ | ⟨_, _, heq⟩ | ⟨sz, hany, hsz, heq⟩
  · rw [heq]; exact hx
  · rw [heq]; exact hx
  · rw [heq, processFileCore_fps]
    exact List.mem_append_left _ hx

theorem scanFiles_length (env : Env) (c : Catalog) (files : List String) :
    (scanFiles env c files).2.length = files.length := by
  induction files generalizing c with
  | nil => rfl
  | cons f fs ih =>
    simp only [scanFiles]
    simpa using ih (processFile env c f).1

theorem scanFiles_fps_mono (env : Env) (c : Catalog) (files : List String)
    (x : String) (hx : x ∈ c.media.map (·.filepath)) :
    x ∈ (scanFiles env c files).1.media.map (·.filepath) := by
  induction files generalizing c with
  | nil => exact hx
  | cons f fs ih =>
    simp only [scanFiles]
    exact ih (processFile env c f).1 (processFile_fps_mono env c f x hx)

theorem scanFiles_covers (env : Env) (c : Catalog) (files : List String) :
    ∀ fp ∈ files, fp ∈ (scanFiles env c files).1.media.map (·.filepath) ∨
      env.statSize fp = none := by
  induction files generalizing c with
  | nil => intro fp h; simp at h
  | cons f fs ih =>
    intro fp hfp
    simp only [scanFiles]
    rcases List.mem_cons.mp hfp with rfl | hmem
    · rcases processFile_cases env c fp with
        ⟨hany, heq⟩ | ⟨_, hnone, heq⟩ | ⟨sz, hany, hsz, heq⟩
      · left
        rw [heq]
        rcases List.any_eq_true.mp hany with ⟨r, hr, hrf⟩
        exact scanFiles_fps_mono env c fs fp
          (List.mem_map.mpr ⟨r, hr, by simpa using hrf⟩)
      · exact Or.inr hnone
      · left
        rw [heq]
        apply scanFiles_fps_mono
        rw [processFileCore_fps]
        exact List.mem_append_right _ (by simp)
    · rcases ih (processFile env c f).1 fp hmem with hin | hnone
      · exact Or.inl hin
      · exact Or.inr hnone

theorem scanFiles_no_new (env : Env) (c : Catalog) (files : List String)
    (hcov : ∀ fp ∈ files, fp ∈ c.media.map (·.filepath) ∨
      env.statSize fp = none) :
    (scanFiles env c files).1 = c ∧
    ∀ o ∈ (scanFiles env c files).2, o ≠ FileOutcome.processed := by
  induction files generalizing c with
  | nil => exact ⟨rfl, by simp [scanFiles]⟩
  | cons f fs ih =>
    have hstep : processFile env c f = (c, .skipped) ∨
        processFile env c f = (c, .fileError) := by
      rcases hcov f (by simp) with hin | hnone
      · left
        apply processFile_skipped
        rcases List.mem_map.mp hin with ⟨r, hr, hrf⟩
        exact List.any_eq_true.mpr ⟨r, hr, by simp [hrf]⟩
      · by_cases h1 : c.media.any (fun r => r.filepath = f) = true
        · exact Or.inl (processFile_skipped env c f h1)
        · exact Or.inr
            (processFile_fileError env c f (Bool.eq_false_iff.mpr h1) hnone)
    have hcov2 : ∀ fp ∈ fs, fp ∈ c.media.map (·.filepath) ∨
        env.statSize fp = none := fun fp h => hcov fp (by simp [h])
    rcases hstep with heq | heq
    · simp only [scanFiles, heq]
      refine ⟨(ih c hcov2).1, ?_⟩
      intro o ho
      rcases List.mem_cons.mp ho with rfl | hmem
      · simp
      · exact (ih c hcov2).2 o hmem
    · simp only [scanFiles, heq]
      refine ⟨(ih c hcov2).1, ?_⟩
      intro o ho
      rcases List.mem_cons.mp ho with rfl | hmem
      · simp
      · exact (ih c hcov2).2 o hmem

theorem attemptedCount_split (outs : List FileOutcome) :
    attemptedCount outs =
      countOutcome outs .processed + countOutcome outs .fileError := by
  induction outs with
  | nil => rfl
  | cons o os ih =>
    cases o <;>
      simp [attemptedCount, countOutcome, List.filter_cons] at * <;> omega

theorem scanFiles_processed_persisted (env : Env) (c : Catalog)
    (files : List String) :
    ∀ p ∈ files.zip (scanFiles env c files).2,
      p.2 = FileOutcome.processed →
      p.1 ∈ (scanFiles env c files).1.media.map (·.filepath) := by
  induction files generalizing c with
  | nil => simp
  | cons f fs ih =>
    intro p hp hproc
    simp only [scanFiles, List.zip_cons_cons] at hp ⊢
    rcases List.mem_cons.mp hp with rfl | hmem
    · simp only at hproc
      rcases processFile_cases env c f with
        ⟨_, heq⟩ | ⟨_, _, heq⟩ | ⟨sz, hany, hsz, heq⟩
      · rw [heq] at hproc; simp at hproc
      · rw [heq] at hproc; simp at hproc
      · rw [heq]
        apply scanFiles_fps_mono
        rw [processFileCore_fps]
        exact List.mem_append_right _ (by simp)
    · exact ih (processFile env c f).1 p hmem hproc

/-! ## List auxiliaries for the interleaved model -/

theorem map_set_same {α β : Type} (f : α → β) (ts : List α) (i : Nat)
    (t t2 : α) (hget : ts.get? i = some t) (hf : f t2 = f t) :
    (ts.set i t2).map f = ts.map f := by
  induction ts generalizing i with
  | nil => simp at hget
  | cons a as ih =>
    cases i with
    | zero =>
      simp only [List.get?] at hget
      injection hget with hget
      subst hget
      simp [List.set, hf]
    | succ j =>
      simp only [List.get?] at hget
      simp [List.set, ih j hget]

theorem mem_set_index {α : Type} (ts : List α) (i : Nat) (t2 x : α)
    (hx : x ∈ ts.set i t2) :
    x = t2 ∨ ∃ j, j ≠ i ∧ ts.get? j = some x := by
  induction ts generalizing i with
  | nil => simp [List.set] at hx
  | cons a as ih =>
    cases i with
    | zero =>
      simp only [List.set] at hx
      rcases List.mem_cons.mp hx with rfl | hmem
      · exact Or.inl rfl
      · rcases List.get?_of_mem hmem with ⟨j, hj⟩
        exact Or.inr ⟨j + 1, by simp, by simpa using hj⟩
    | succ k =>
      simp only [List.set] at hx
      rcases List.mem_cons.mp hx with rfl | hmem
      · exact Or.inr ⟨0, by simp, rfl⟩
      · rcases ih k hmem with rfl | ⟨j, hj, hjg⟩
        · exact Or.inl rfl
        · exact Or.inr ⟨j + 1, by simpa using hj, by simpa using hjg⟩

theorem nodup_map_get_ne {α β : Type} (f : α → β) (ts : List α)
    (h : (ts.map f).Nodup) (i j : Nat) (hij : i ≠ j) (a b : α)
    (ha : ts.get? i = some a) (hb : ts.get? j = some b) : f a ≠ f b := by
  induction ts generalizing i j with
  | nil => simp at ha
  | cons x xs ih =>
    simp only [List.map_cons, List.nodup_cons] at h
    cases i with
    | zero =>
      injection ha with ha
      subst ha
      cases j with
      | zero => exact absurd rfl hij
      | succ j2 =>
        have hbmem : b ∈ xs := List.get?_mem (by simpa using hb)
        intro hfe
        exact h.1 (hfe ▸ List.mem_map_of_mem f hbmem)
    | succ i2 =>
      cases j with
      | zero =>
        injection hb with hb
        subst hb
        have hamem : a ∈ xs := List.get?_mem (by simpa using ha)
        intro hfe
        exact h.1 (hfe ▸ List.mem_map_of_mem f hamem)
      | succ j2 =>
        exact ih h.2 i2 j2 (by omega) (by simpa using ha) (by simpa using hb)

/-! ## Step lemmas for the interleaved model -/

theorem rowFor_filepath (t : STask) (c : Catalog) :
    (t.rowFor c).filepath = t.filepath := rfl

theorem stepTask_spec (env : Env) (c : Catalog) (t : STask) :
    (stepTask env c t).2.filepath = t.filepath ∧
    ((stepTask env c t).1.media = c.media ∨
      ((stepTask env c t).1.media = c.media ++ [t.rowFor c] ∧ t.pc = 3)) ∧
    (1 ≤ (stepTask env c t).2.pc → (stepTask env c t).2.pc ≤ 3 →
      ((1 ≤ t.pc ∧ t.pc ≤ 3 ∧ (stepTask env c t).1.media = c.media) ∨
       (t.pc = 0 ∧ (stepTask env c t).1 = c ∧
         c.media.any (fun r => r.filepath = t.filepath) = false))) := by
  obtain ⟨fp, fn, fsz, iss, sd, mm, pc, fnd, sid⟩ := t
  rcases pc with _ | _ | _ | _ | k
  · by_cases hany : c.media.any (fun r => r.filepath = fp) = true
    · have hstep : stepTask env c ⟨fp, fn, fsz, iss, sd, mm, 0, fnd, sid⟩ =
          (c, ⟨fp, fn, fsz, iss, sd, mm, 4, fnd, sid⟩) := by
        simp [stepTask, hany]
      rw [hstep]
      exact ⟨rfl, Or.inl rfl, fun _ h3 => absurd h3 (by norm_num)⟩
    · have hanyf := Bool.eq_false_iff.mpr hany
      have hstep : stepTask env c ⟨fp, fn, fsz, iss, sd, mm, 0, fnd, sid⟩ =
          (c, ⟨fp, fn, fsz, iss, sd, mm, if iss then 1 else 3, fnd, sid⟩) := by
        simp [stepTask, hanyf]
      rw [hstep]
      exact ⟨rfl, Or.inl rfl, fun _ _ => Or.inr ⟨rfl, rfl, hanyf⟩⟩
  · exact ⟨rfl, Or.inl rfl, fun _ _ => Or.inl ⟨by norm_num, by norm_num, rfl⟩⟩
  · cases fnd with
    | none =>
      exact ⟨rfl, Or.inl rfl, fun _ _ => Or.inl ⟨by norm_num, by norm_num, rfl⟩⟩
    | some fo =>
      cases fo with
      | none =>
        exact ⟨rfl, Or.inl (upsertSeriesInsert_spec env sd c).1,
          fun _ _ => Or.inl ⟨by norm_num, by norm_num,
            (upsertSeriesInsert_spec env sd c).1⟩⟩
      | some j =>
        exact ⟨rfl, Or.inl rfl, fun _ _ => Or.inl ⟨by norm_num, by norm_num, rfl⟩⟩
  · exact ⟨rfl, Or.inr ⟨rfl, rfl⟩,
      fun _ h3 => absurd (show (4 : Nat) ≤ 3 from h3) (by norm_num)⟩
  · exact ⟨rfl, Or.inl rfl, fun h1 h3 => Or.inl ⟨h1, h3, rfl⟩⟩

theorem stepTask_preserves (env : Env) (c : Catalog) (ts : List STask)
    (i : Nat) (t : STask) (hget : ts.get? i = some t)
    (hinv : TasksInv c ts) :
    TasksInv (stepTask env c t).1 (ts.set i (stepTask env c t).2) := by
  obtain ⟨hmed, hts, hact⟩ := hinv
  obtain ⟨hfp, hmedeff, hactstep⟩ := stepTask_spec env c t
  refine ⟨?_, ?_, ?_⟩
  · rcases hmedeff with he | ⟨he, hpc3⟩
    · rw [he]; exact hmed
    · rw [he]
      have hnotin : ∀ r ∈ c.media, r.filepath ≠ t.filepath :=
        hact t (List.get?_mem hget) (by rw [hpc3]; norm_num) (by rw [hpc3])
      rw [List.map_append, List.nodup_append]
      refine ⟨hmed, by simp, ?_⟩
      intro a ha hb
      simp only [List.map_cons, List.map_nil, List.mem_singleton,
        rowFor_filepath] at hb
      rcases List.mem_map.mp ha with ⟨r, hr, rfl⟩
      exact hnotin r hr hb
  · rw [map_set_same _ ts i t _ hget hfp]
    exact hts
  · intro u hu h1 h3 r hr
    rcases mem_set_index ts i _ u hu with rfl | ⟨j, hj, hjg⟩
    · rw [hfp]
      rcases hactstep h1 h3 with ⟨ht1, ht3, hmeq⟩ | ⟨hpc0, hceq, hany⟩
      · rw [hmeq] at hr
        exact hact t (List.get?_mem hget) ht1 ht3 r hr
      · rw [hceq] at hr
        have := List.any_eq_false.mp hany r hr
        simpa using this
    · have hu_mem : u ∈ ts := List.get?_mem hjg
      rcases hmedeff with he | ⟨he, hpc3⟩
      · rw [he] at hr
        exact hact u hu_mem h1 h3 r hr
      · rw [he] at hr
        rcases List.mem_append.mp hr with hrold | hrnew
        · exact hact u hu_mem h1 h3 r hrold
        · simp only [List.mem_singleton] at hrnew
          subst hrnew
          rw [rowFor_filepath]
          exact Ne.symm (nodup_map_get_ne (·.filepath) ts hts j i hj u t hjg hget)

theorem runSched_inv (env : Env) (sched : List Nat) :
    ∀ (c : Catalog) (ts : List STask), TasksInv c ts →
      TasksInv (runSched env sched c ts).1 (runSched env sched c ts).2 := by
  induction sched with
  | nil => intro c ts h; exact h
  | cons i rest ih =>
    intro c ts h
    simp only [runSched]
    cases hget : ts.get? i with
    | none => exact ih c ts h
    | some t => exact ih _ _ (stepTask_preserves env c ts i t hget h)

/-! ## Claim theorems -/

/-- Claim C6, counterexample.  The claim states that every genre id absent
from the fixed table is dropped from `mapGenres`' output.  On the live
code (`tmdbUtils.js`, `getGenreNameById` falls back to `String(id)`), the
unknown id 1 is rendered as the string `"1"`, which is not a name of the
table and is not dropped. -/
theorem claim6_counterexample :
    mapGenres [1] = "1" ∧
    "1" ∉ genreTable.map (·.2) ∧
    mapGenres [1] ≠ "" := by
  refine ⟨rfl, by decide, by decide⟩

/-- Claim C6, amended: for every list of provider genre ids, `mapGenres`
joins one entry per input id with `", "`, never dropping any element and
never failing: an id present in the `GENRE_MAP` table maps to its table
name, and an id absent from the table is rendered as its decimal string
representation (not dropped). -/
theorem claim6_amended (ids : List Nat) :
    mapGenres ids = String.intercalate ", " (ids.map getGenreNameById) ∧
    (∀ id p, genreTable.find? (fun q => q.1 = id) = some p →
      getGenreNameById id = p.2) ∧
    (∀ id, genreTable.find? (fun q => q.1 = id) = none →
      getGenreNameById id = jsStringOfNat id) := by
  refine ⟨?_, ?_, ?_⟩
  · unfold mapGenres
    congr 1
    rw [List.filter_eq_self]
    intro a ha
    rcases List.mem_map.mp ha with ⟨id, _, rfl⟩
    simpa using getGenreNameById_ne_empty id
  · intro id p hp
    unfold getGenreNameById
    rw [hp]
  · intro id hn
    unfold getGenreNameById
    rw [hn]

/-- Claim C6, witness for the amended theorem at a concrete input: id 28
is in the table (name `Action`), id 1 is not and renders as `"1"`. -/
theorem claim6_amended_witness :
    mapGenres [28, 1] = String.intercalate ", " ([28, 1].map getGenreNameById) ∧
    getGenreNameById 28 = ((28 : Nat), "Action").2 ∧
    getGenreNameById 1 = jsStringOfNat 1 :=
  ⟨(claim6_amended [28, 1]).1,
   (claim6_amended [28, 1]).2.1 28 (28, "Action") rfl,
   (claim6_amended [28, 1]).2.2 1 rfl⟩

/-- Claim C8, counterexample.  The claim states the search query is the
extension-stripped stem with everything up to and including the first
hyphen-delimited segment dropped.  The current controller
(`media.controller.js` line 59) uses the stem unchanged: for
`Tag-Some Title.mp4` it searches for `Tag-Some Title`, not the claimed
`Some Title` (which only the legacy extractor produces). -/
theorem claim8_counterexample :
    extractTitleCurrent "Tag-Some Title.mp4" = "Tag-Some Title" ∧
    "Tag-Some Title" ≠ "Some Title" ∧
    extractQueryLegacy "Tag-Some Title.mp4" = "Some Title" := by
  refine ⟨rfl, by decide, rfl⟩

/-- Claim C8, amended: the legacy extractor (older controller revisions)
behaves exactly as the claim describes — extension stripped, and when the
stem contains a hyphen, everything up to and including the first hyphen is
dropped and the result trimmed — while the current controller's extractor
returns the extension-stripped stem unchanged, with no hyphen
handling. -/
theorem claim8_amended (filename : String) :
    extractQueryLegacy filename = specQuery filename ∧
    extractTitleCurrent filename = jsParseName filename := by
  constructor
  · unfold extractQueryLegacy specQuery
    by_cases hc : (jsParseNameL filename.toList).contains '-'
    · simp only [hc, if_true]
      rw [joinChar_drop_one_splitChar]
    · simp only [hc]
      rw [if_neg (by simp [hc]), if_neg (by simp [hc])]
  · rfl

/-- Claim C3: for a cataloged media row whose file holds `S ≥ 100` bytes,
the parsed header `bytes=0-99` yields a 206 response with exactly 100
bytes of body, `Content-Length` 100, and total size `S` in
`Content-Range`; the absent range header yields a 200 response carrying
all `S` bytes; an id matching no row yields 404. -/
theorem claim3_stream_range (fs : FsEnv) (c : Catalog) (id : Nat)
    (m : MediaRow) (bytes : List Nat)
    (hm : c.media.find? (fun r => r.id = id) = some m)
    (hc : fs.content m.filepath = some bytes)
    (hS : 100 ≤ bytes.length) :
    parseRangeHeader "bytes=0-99" = some (0, some 99) ∧
    streamMedia fs c id (some (0, some 99)) =
      .partialContent 0 99 bytes.length 100 (bytes.take 100) ∧
    (streamMedia fs c id (some (0, some 99))).bodyBytes.length = 100 ∧
    streamMedia fs c id none = .fullContent bytes.length bytes ∧
    (∀ id2 r, c.media.find? (fun x => x.id = id2) = none →
      streamMedia fs c id2 r = .notFound 404 "Media not found") := by
  have hpart206 : streamMedia fs c id (some (0, some 99)) =
      .partialContent 0 99 bytes.length 100 (bytes.take 100) := by
    unfold streamMedia
    rw [hm]
    dsimp only
    rw [hc]
    norm_num
    rw [show Int.toNat 100 = (100 : Nat) from rfl]
  refine ⟨by decide, hpart206, ?_, ?_, ?_⟩
  · rw [hpart206]
    simp only [StreamResponse.bodyBytes, List.length_take]
    omega
  · unfold streamMedia
    rw [hm]
    dsimp only
    rw [hc]
  · intro id2 r hn
    unfold streamMedia
    rw [hn]

/-- Claim C3, witness: the 300-byte sample file under range `bytes=0-99`
returns 206 with 100 bytes, and the full request returns all 300 bytes. -/
theorem claim3_stream_range_witness :
    parseRangeHeader "bytes=0-99" = some (0, some 99) ∧
    streamMedia sampleFs sampleCatalog 1 (some (0, some 99)) =
      .partialContent 0 99 (List.range 300).length 100 ((List.range 300).take 100) ∧
    (streamMedia sampleFs sampleCatalog 1 (some (0, some 99))).bodyBytes.length = 100 ∧
    streamMedia sampleFs sampleCatalog 1 none =
      .fullContent (List.range 300).length (List.range 300) ∧
    (∀ id2 r, sampleCatalog.media.find? (fun x => x.id = id2) = none →
      streamMedia sampleFs sampleCatalog id2 r = .notFound 404 "Media not found") :=
  claim3_stream_range sampleFs sampleCatalog 1 sampleRow (List.range 300)
    rfl rfl (by simp)

/-- Claim C9, counterexample.  The claim asserts the responder answers
206 for all parsed start/end values, in particular for `start > end`.  On
the code, `fs.createReadStream(filepath, {start: 5, end: 2})` throws
`ERR_OUT_OF_RANGE` before `writeHead(206, ...)` runs, and the catch
answers 500: range `5-2` over the 300-byte sample file yields the 500
error response, not 206. -/
theorem claim9_counterexample :
    streamMedia sampleFs sampleCatalog 1 (some (5, some 2)) =
      .streamError 500 "Error streaming media" ∧
    (streamMedia sampleFs sampleCatalog 1 (some (5, some 2))).status = 500 ∧
    (streamMedia sampleFs sampleCatalog 1 (some (5, some 2))).status ≠ 206 := by
  refine ⟨rfl, rfl, by decide⟩

/-- Claim C9, amended: the handler validates nothing against the file
size — every parsed range with `start ≤ end` (end defaulting to `S − 1`)
is answered 206 with `Content-Length = end − start + 1`, even when
`start ≥ S` or `end ≥ S` (out-of-bounds spans are not rejected) — but a
parsed range with `start > end` (including `bytes=K-` with `K ≥ S`, whose
defaulted end `S − 1` lies below `K`) makes `fs.createReadStream` throw
`ERR_OUT_OF_RANGE`, answered 500 `Error streaming media` by the catch; in
no case is a 416-style rejection produced. -/
theorem claim9_range_amended (fs : FsEnv) (c : Catalog) (id : Nat)
    (m : MediaRow) (bytes : List Nat)
    (hm : c.media.find? (fun r => r.id = id) = some m)
    (hc : fs.content m.filepath = some bytes)
    (start : Nat) (endOpt : Option Nat) :
    (((start : Int) ≤ (match endOpt with
        | some e => (e : Int)
        | none => (bytes.length : Int) - 1)) →
      (streamMedia fs c id (some (start, endOpt))).status = 206 ∧
      (streamMedia fs c id (some (start, endOpt))).declaredLength =
        some ((match endOpt with
               | some e => (e : Int)
               | none => (bytes.length : Int) - 1) - (start : Int) + 1)) ∧
    (((start : Int) > (match endOpt with
        | some e => (e : Int)
        | none => (bytes.length : Int) - 1)) →
      streamMedia fs c id (some (start, endOpt)) =
        .streamError 500 "Error streaming media") ∧
    (streamMedia fs c id (some (start, endOpt))).status ≠ 416 := by
  unfold streamMedia
  rw [hm]
  dsimp only
  rw [hc]
  cases endOpt with
  | some e =>
    dsimp only
    refine ⟨?_, ?_, ?_⟩
    · intro hle
      rw [if_neg (not_lt.mpr hle)]
      exact ⟨rfl, rfl⟩
    · intro hgt
      rw [if_pos hgt]
    · by_cases hgt : (start : Int) > (e : Int)
      · rw [if_pos hgt]
        decide
      · rw [if_neg hgt]
        simp [StreamResponse.status]
  | none =>
    dsimp only
    refine ⟨?_, ?_, ?_⟩
    · intro hle
      rw [if_neg (not_lt.mpr hle)]
      exact ⟨rfl, rfl⟩
    · intro hgt
      rw [if_pos hgt]
    · by_cases hgt : (start : Int) > (bytes.length : Int) - 1
      · rw [if_pos hgt]
        decide
      · rw [if_neg hgt]
        simp [StreamResponse.status]

/-- Claim C9, witness: on the 300-byte sample file, the out-of-bounds
range `200-350` (end past the file size) is answered 206 with declared
length 151 and is not rejected, while range `5-2` (start > end) is
answered 500 — and neither is a 416. -/
theorem claim9_range_amended_witness :
    ((streamMedia sampleFs sampleCatalog 1 (some (200, some 350))).status = 206 ∧
     (streamMedia sampleFs sampleCatalog 1 (some (200, some 350))).declaredLength =
       some ((350 : Int) - (200 : Int) + 1)) ∧
    (streamMedia sampleFs sampleCatalog 1 (some (5, some 2)) =
      .streamError 500 "Error streaming media") ∧
    (streamMedia sampleFs sampleCatalog 1 (some (5, some 2))).status ≠ 416 := by
  refine ⟨?_, ?_, ?_⟩
  · exact (claim9_range_amended sampleFs sampleCatalog 1 sampleRow
      (List.range 300) rfl rfl 200 (some 350)).1 (by norm_num)
  · exact (claim9_range_amended sampleFs sampleCatalog 1 sampleRow
      (List.range 300) rfl rfl 5 (some 2)).2.1 (by norm_num)
  · exact (claim9_range_amended sampleFs sampleCatalog 1 sampleRow
      (List.range 300) rfl rfl 5 (some 2)).2.2

/-- Claim C10: the favorite/watched toggle endpoints respond 200 with
their fixed success message for every id — they never distinguish unknown
ids with a 404 — and when no media row carries the id the catalog is left
unchanged. -/
theorem claim10_toggle_unknown_id (c : Catalog) (id : Nat)
    (h : ∀ r ∈ c.media, r.id ≠ id) :
    (toggleFavorite c id).2 = {status := 200, message := "Favorite status toggled"} ∧
    (toggleWatched c id).2 = {status := 200, message := "Watched status toggled"} ∧
    (toggleFavorite c id).1 = c ∧
    (toggleWatched c id).1 = c ∧
    (∀ c2 id2, (toggleFavorite c2 id2).2.status = 200 ∧
      (toggleWatched c2 id2).2.status = 200) := by
  have hmap : ∀ (l : List MediaRow) (f : MediaRow → MediaRow),
      (∀ r ∈ l, f r = r) → l.map f = l := by
    intro l f
    induction l with
    | nil => intro _; rfl
    | cons a as ih =>
      intro hf
      simp only [List.map_cons]
      rw [hf a (by simp), ih (fun r hr => hf r (by simp [hr]))]
  refine ⟨rfl, rfl, ?_, ?_, fun c2 id2 => ⟨rfl, rfl⟩⟩
  · unfold toggleFavorite
    simp only
    rw [hmap _ _ (fun r hr => by rw [if_neg (h r hr)])]
  · unfold toggleWatched
    simp only
    rw [hmap _ _ (fun r hr => by rw [if_neg (h r hr)])]

/-- Claim C10, witness: toggling id 2 (present only as id 1) leaves the
sample catalog unchanged and still responds 200 with the success
messages. -/
theorem claim10_toggle_unknown_id_witness :
    (toggleFavorite sampleCatalog 2).2 =
      {status := 200, message := "Favorite status toggled"} ∧
    (toggleWatched sampleCatalog 2).2 =
      {status := 200, message := "Watched status toggled"} ∧
    (toggleFavorite sampleCatalog 2).1 = sampleCatalog ∧
    (toggleWatched sampleCatalog 2).1 = sampleCatalog ∧
    (∀ c2 id2, (toggleFavorite c2 id2).2.status = 200 ∧
      (toggleWatched c2 id2).2.status = 200) :=
  claim10_toggle_unknown_id sampleCatalog 2 (by decide)

/-- Claim C7: when a series row with the given title exists,
`upsertSeries` returns that row's id and leaves the catalog completely
unchanged — no field update, no insert, and no download (the download log
is part of the returned catalog); a new row (carrying the given title) is
inserted only when no row with that title exists. -/
theorem claim7_upsert_frame (env : Env) (d : SeriesData) (c : Catalog) :
    (∀ s, c.series.find? (fun x => x.title = d.name) = some s →
      upsertSeries env d c = (s.id, c)) ∧
    (c.series.find? (fun x => x.title = d.name) = none →
      (upsertSeries env d c).2.media = c.media ∧
      (upsertSeries env d c).2.series.map (·.title) =
        c.series.map (·.title) ++ [d.name]) := by
  constructor
  · intro s hs
    unfold upsertSeries
    rw [hs]
  · intro hn
    unfold upsertSeries
    rw [hn]
    exact upsertSeriesInsert_spec env d c

/-- Claim C7, witness: with a `ShowX` row already present, the upsert
returns its id and changes nothing; with an empty catalog the row is
inserted. -/
theorem claim7_upsert_frame_witness :
    (upsertSeries sampleEnvNoMatch {name := "ShowX"} {series := [showXRow]} =
      (showXRow.id, {series := [showXRow]})) ∧
    ((upsertSeries sampleEnvNoMatch {name := "ShowX"} {}).2.media =
      Catalog.media {} ∧
     (upsertSeries sampleEnvNoMatch {name := "ShowX"} {}).2.series.map (·.title) =
      (Catalog.series {}).map (·.title) ++ ["ShowX"]) := by
  constructor
  · exact (claim7_upsert_frame sampleEnvNoMatch {name := "ShowX"} _).1 showXRow rfl
  · exact (claim7_upsert_frame sampleEnvNoMatch {name := "ShowX"} {}).2 rfl

/-- Claim C2: the scan is idempotent over an unchanged tree.  Re-running
`scanFiles` over the same file list against the catalog produced by the
first run changes nothing (zero new media rows — in fact the whole
catalog, series and download log included, is unchanged) and produces no
`processed` outcome; and a file whose path is already cataloged is
answered `skipped` with the state unchanged by `processFile` under
arbitrary provider environments — no provider lookup or insert can
influence the result. -/
theorem claim2_scan_idempotent (env : Env) (c : Catalog)
    (files : List String) :
    (scanFiles env (scanFiles env c files).1 files).1 =
      (scanFiles env c files).1 ∧
    (∀ o ∈ (scanFiles env (scanFiles env c files).1 files).2,
      o ≠ FileOutcome.processed) ∧
    (∀ (env2 env3 : Env) (c2 : Catalog) (fp : String),
      fp ∈ c2.media.map (·.filepath) →
      processFile env2 c2 fp = (c2, .skipped) ∧
      processFile env2 c2 fp = processFile env3 c2 fp) := by
  have hcov := scanFiles_covers env c files
  have hrun2 := scanFiles_no_new env (scanFiles env c files).1 files hcov
  refine ⟨hrun2.1, hrun2.2, ?_⟩
  intro env2 env3 c2 fp hmem
  rcases List.mem_map.mp hmem with ⟨r, hr, hrf⟩
  have hany : c2.media.any (fun x => x.filepath = fp) = true :=
    List.any_eq_true.mpr ⟨r, hr, by simp [hrf]⟩
  rw [processFile_skipped env2 c2 fp hany, processFile_skipped env3 c2 fp hany]
  exact ⟨rfl, rfl⟩

/-- Claim C2, witness: scanning the sample movie twice inserts nothing on
the second run, and the already-cataloged sample path is skipped by
`processFile` regardless of the environment. -/
theorem claim2_scan_idempotent_witness :
    ((scanFiles sampleEnvNoMatch
        (scanFiles sampleEnvNoMatch {}
          ["/mnt/nas/Homeflix/Movies/Interstellar (2014).mp4"]).1
        ["/mnt/nas/Homeflix/Movies/Interstellar (2014).mp4"]).1 =
      (scanFiles sampleEnvNoMatch {}
        ["/mnt/nas/Homeflix/Movies/Interstellar (2014).mp4"]).1) ∧
    (processFile sampleEnvNoMatch sampleCatalog "/m/f.mp4" =
      (sampleCatalog, .skipped)) := by
  refine ⟨(claim2_scan_idempotent sampleEnvNoMatch {} _).1, ?_⟩
  exact ((claim2_scan_idempotent sampleEnvNoMatch {} []).2.2
    sampleEnvNoMatch sampleEnvNoMatch sampleCatalog "/m/f.mp4"
    (by decide)).1

/-- Claim C4: every file of the list is attempted (one outcome per file);
with `N` attempted (non-skipped) files of which `M` failed, the processed
count is `N − M`; the scan responds with the 500 failure exactly when
`M ≥ 1` and `N − M = 0`; every file whose outcome is `processed` is
persisted in the final catalog; and otherwise the scan responds success,
reporting the processed count and — exactly when `M ≥ 1` — the failure
count. -/
theorem claim4_partial_failure (env : Env) (c : Catalog)
    (files : List String) :
    (scanFiles env c files).2.length = files.length ∧
    countOutcome (scanFiles env c files).2 .processed =
      attemptedCount (scanFiles env c files).2 -
        countOutcome (scanFiles env c files).2 .fileError ∧
    ((scanMedia env c files).2 =
        .failure 500 "Media scan completed with errors: All files failed to process" ↔
      1 ≤ countOutcome (scanFiles env c files).2 .fileError ∧
        attemptedCount (scanFiles env c files).2 -
          countOutcome (scanFiles env c files).2 .fileError = 0) ∧
    (∀ p ∈ files.zip (scanFiles env c files).2,
      p.2 = FileOutcome.processed →
      p.1 ∈ (scanFiles env c files).1.media.map (·.filepath)) ∧
    (¬(1 ≤ countOutcome (scanFiles env c files).2 .fileError ∧
        attemptedCount (scanFiles env c files).2 -
          countOutcome (scanFiles env c files).2 .fileError = 0) →
      (scanMedia env c files).2 = .success
        (if countOutcome (scanFiles env c files).2 .fileError ≠ 0 then
          s!"Media scan completed: {countOutcome (scanFiles env c files).2 .processed} files processed, {countOutcome (scanFiles env c files).2 .fileError} files failed"
        else
          s!"Media scan completed: {countOutcome (scanFiles env c files).2 .processed} files processed successfully")) := by
  have hsplit := attemptedCount_split (scanFiles env c files).2
  refine ⟨scanFiles_length env c files, by omega, ?_,
    scanFiles_processed_persisted env c files, ?_⟩
  · unfold scanMedia scanResponseOf
    simp only
    split
    · rename_i hcond
      exact iff_of_true rfl (by omega)
    · rename_i hcond
      refine iff_of_false ?_ (by omega)
      split
      · simp
      · simp
  · intro hno
    unfold scanMedia scanResponseOf
    simp only
    split
    · rename_i hcond
      exact absurd (by omega : 1 ≤ countOutcome (scanFiles env c files).2 .fileError ∧
        attemptedCount (scanFiles env c files).2 -
          countOutcome (scanFiles env c files).2 .fileError = 0) hno
    · split <;> rfl

/-- Claim C4, witness: scanning two movie files of which one fails
`statSync` yields one processed and one failed outcome, a success
response reporting both counts, and the succeeding file persisted. -/
theorem claim4_partial_failure_witness :
    (scanFiles sampleEnvHalf {} ["/mnt/nas/Homeflix/Movies/A.mp4",
      "/mnt/nas/Homeflix/Movies/B.mp4"]).2.length =
      ["/mnt/nas/Homeflix/Movies/A.mp4", "/mnt/nas/Homeflix/Movies/B.mp4"].length ∧
    (("/mnt/nas/Homeflix/Movies/A.mp4",
        FileOutcome.processed) ∈
      ["/mnt/nas/Homeflix/Movies/A.mp4", "/mnt/nas/Homeflix/Movies/B.mp4"].zip
        (scanFiles sampleEnvHalf {} ["/mnt/nas/Homeflix/Movies/A.mp4",
          "/mnt/nas/Homeflix/Movies/B.mp4"]).2 →
      "/mnt/nas/Homeflix/Movies/A.mp4" ∈
        (scanFiles sampleEnvHalf {} ["/mnt/nas/Homeflix/Movies/A.mp4",
          "/mnt/nas/Homeflix/Movies/B.mp4"]).1.media.map (·.filepath)) ∧
    (scanMedia sampleEnvHalf {} ["/mnt/nas/Homeflix/Movies/A.mp4",
      "/mnt/nas/Homeflix/Movies/B.mp4"]).2 =
      .success "Media scan completed: 1 files processed, 1 files failed" := by
  have h := claim4_partial_failure sampleEnvHalf {}
    ["/mnt/nas/Homeflix/Movies/A.mp4", "/mnt/nas/Homeflix/Movies/B.mp4"]
  refine ⟨h.1, fun hp => h.2.2.2.1 _ hp rfl, ?_⟩
  have hmsg := h.2.2.2.2 (by decide)
  rw [hmsg]
  decide

theorem fetchTmdbSeriesData_nomatch (env : Env) (q : String)
    (h : env.searchTv q = Except.ok none ∨
      ∃ e, env.searchTv q = Except.error e) :
    fetchTmdbSeriesData env q = none := by
  unfold fetchTmdbSeriesData
  rcases h with h | ⟨e, h⟩ <;> rw [h]

theorem fetchTmdbData_nomatch (env : Env) (fn fp : String)
    (em : Option EpisodeData) (c : Catalog)
    (hmv : env.searchMovie (jsParseName fn) = Except.ok none ∨
      ∃ e, env.searchMovie (jsParseName fn) = Except.error e) :
    fetchTmdbData env fn fp none em c =
      ({title := jsParseName fn, description := "", poster := "", year := "",
        genre := "", language := "", rating := 0,
        mediaType :=
          if jsIncludes fp "/Movies/" = true then "movie"
          else if jsIncludes fp "/Series/" = true then "tv" else ""}, c) := by
  unfold fetchTmdbData
  by_cases hm : jsIncludes fp "/Movies/" = true
  · simp only [hm, if_true]
    rcases hmv with h | ⟨e, h⟩ <;> rw [h]
  · have hm2 : jsIncludes fp "/Movies/" = false := Bool.eq_false_iff.mpr hm
    simp only [hm2, Bool.false_eq_true, if_false]

/-- Claim C5: for every scanned file (path absent, stat succeeding) in an
environment where the provider returns no match — empty result list or
provider error, for movie and series lookups alike — the persisted row
has the filename-derived stem as title, empty description, genre and
year, rating 0 and empty poster; and when the path is a movie path the
persisted `mediaType` is `movie`. -/
theorem claim5_fallback_metadata (env : Env) (c : Catalog) (fp : String)
    (sz : Nat)
    (habs : c.media.any (fun r => r.filepath = fp) = false)
    (hstat : env.statSize fp = some sz)
    (hmv : ∀ q, env.searchMovie q = Except.ok none ∨
      ∃ e, env.searchMovie q = Except.error e)
    (htv : ∀ q, env.searchTv q = Except.ok none ∨
      ∃ e, env.searchTv q = Except.error e) :
    (processFile env c fp).2 = .processed ∧
    (processFile env c fp).1.media.map
        (fun r => (r.filepath, r.title, r.description, r.genre, r.year,
          r.rating, r.poster)) =
      c.media.map (fun r => (r.filepath, r.title, r.description, r.genre,
          r.year, r.rating, r.poster)) ++
        [(fp, jsParseName (basenameOf fp), "", "", "", (0 : Rat), "")] ∧
    (jsIncludes fp "/Movies/" = true →
      (processFile env c fp).1.media.map (·.mediaType) =
        c.media.map (·.mediaType) ++ ["movie"]) := by
  have hpf : processFile env c fp = processFileCore env c fp sz := by
    unfold processFile
    simp [habs, hstat]
  have hsm : ∀ fn, (seriesResolve env c fp fn).2.2.1 = none := by
    intro fn
    unfold seriesResolve
    simp only
    split
    · rw [fetchTmdbSeriesData_nomatch env _ (htv _)]
    · rfl
  refine ⟨by rw [hpf]; rfl, ?_, ?_⟩
  · rw [hpf]
    unfold processFileCore
    simp only
    by_cases hs : jsIncludes fp "/Series/" = true
    · simp only [hs, if_true]
      rw [hsm (basenameOf fp),
        fetchTmdbData_nomatch env (basenameOf fp) fp _ _ (hmv _)]
      simp only [List.map_append]
      rw [seriesResolve_media]
      simp [mkMediaRow]
    · have hs2 : jsIncludes fp "/Series/" = false := Bool.eq_false_iff.mpr hs
      simp only [hs2, Bool.false_eq_true, if_false]
      rw [fetchTmdbData_nomatch env (basenameOf fp) fp _ _ (hmv _)]
      simp [mkMediaRow]
  · intro hmovie
    rw [hpf]
    unfold processFileCore
    simp only
    by_cases hs : jsIncludes fp "/Series/" = true
    · simp only [hs, if_true]
      rw [hsm (basenameOf fp),
        fetchTmdbData_nomatch env (basenameOf fp) fp _ _ (hmv _)]
      simp only [List.map_append]
      rw [seriesResolve_media]
      simp [mkMediaRow, hmovie]
    · have hs2 : jsIncludes fp "/Series/" = false := Bool.eq_false_iff.mpr hs
      simp only [hs2, Bool.false_eq_true, if_false]
      rw [fetchTmdbData_nomatch env (basenameOf fp) fp _ _ (hmv _)]
      simp [mkMediaRow, hmovie]

/-- Claim C5, witness: scanning `Movies/Interstellar (2014).mp4` with no
provider match yields exactly one row with title `Interstellar (2014)`,
media type `movie`, empty genre and rating 0. -/
theorem claim5_fallback_metadata_witness :
    ((processFile sampleEnvNoMatch {}
        "/mnt/nas/Homeflix/Movies/Interstellar (2014).mp4").2 = .processed ∧
     (processFile sampleEnvNoMatch {}
        "/mnt/nas/Homeflix/Movies/Interstellar (2014).mp4").1.media.map
          (fun r => (r.filepath, r.title, r.description, r.genre, r.year,
            r.rating, r.poster)) =
       (Catalog.media {}).map (fun r => (r.filepath, r.title, r.description,
            r.genre, r.year, r.rating, r.poster)) ++
         [("/mnt/nas/Homeflix/Movies/Interstellar (2014).mp4",
           jsParseName (basenameOf "/mnt/nas/Homeflix/Movies/Interstellar (2014).mp4"),
           "", "", "", (0 : Rat), "")] ∧
     (jsIncludes "/mnt/nas/Homeflix/Movies/Interstellar (2014).mp4" "/Movies/" = true →
       (processFile sampleEnvNoMatch {}
          "/mnt/nas/Homeflix/Movies/Interstellar (2014).mp4").1.media.map (·.mediaType) =
         (Catalog.media {}).map (·.mediaType) ++ ["movie"])) ∧
    (processFile sampleEnvNoMatch {}
        "/mnt/nas/Homeflix/Movies/Interstellar (2014).mp4").1.media.map
          (fun r => (r.title, r.mediaType, r.genre, r.rating)) =
      [("Interstellar (2014)", "movie", "", (0 : Rat))] := by
  refine ⟨claim5_fallback_metadata sampleEnvNoMatch {} _ 1000 rfl rfl
    (fun q => Or.inl rfl) (fun q => Or.inl rfl), ?_⟩
  rfl

/-- Claim C1, counterexample.  Two per-file tasks for distinct files of
the same new series (`ShowX`), started against an empty catalog and
interleaved under `Promise.allSettled` so that both series existence
checks run before either insert (the schedule alternates the tasks'
steps), leave TWO `series` rows with the same title: the check-then-insert
`upsertSeries` does not preserve the Series title uniqueness invariant
under concurrency. -/
theorem claim1_counterexample :
    raceTask0.filepath ≠ raceTask1.filepath ∧
    raceTask0.sdata.name = raceTask1.sdata.name ∧
    raceTask0.pc = 0 ∧ raceTask1.pc = 0 ∧
    ((runSched sampleEnvNoMatch [0, 1, 0, 1, 0, 1, 0, 1] {}
        [raceTask0, raceTask1]).1.series.map (·.title) = ["ShowX", "ShowX"]) ∧
    ¬ ((runSched sampleEnvNoMatch [0, 1, 0, 1, 0, 1, 0, 1] {}
        [raceTask0, raceTask1]).1.series.map (·.title)).Nodup := by
  have h : (runSched sampleEnvNoMatch [0, 1, 0, 1, 0, 1, 0, 1] {}
      [raceTask0, raceTask1]).1.series.map (·.title) = ["ShowX", "ShowX"] := rfl
  exact ⟨by decide, rfl, rfl, rfl, h, by rw [h]; decide⟩

/-- Claim C1, amended: MediaItem filepath uniqueness does hold for every
reachable state — under every interleaving of the per-file tasks, given
pairwise-distinct task filepaths (as produced by the directory walk) and
an initially duplicate-free media table — because each filepath is
handled by exactly one task, whose check-then-insert cannot race with
itself; and under sequential (serialized) execution of the tasks both
invariants hold: series titles and media filepaths stay pairwise
distinct.  Only the concurrent same-title series upsert violates
uniqueness (see the counterexample). -/
theorem claim1_amended (env : Env) :
    (∀ (sched : List Nat) (c : Catalog) (ts : List STask),
      (c.media.map (·.filepath)).Nodup →
      (ts.map (·.filepath)).Nodup →
      (∀ t ∈ ts, t.pc = 0) →
      ((runSched env sched c ts).1.media.map (·.filepath)).Nodup) ∧
    (∀ (c : Catalog) (files : List String),
      (c.series.map (·.title)).Nodup →
      (c.media.map (·.filepath)).Nodup →
      ((scanFiles env c files).1.series.map (·.title)).Nodup ∧
      ((scanFiles env c files).1.media.map (·.filepath)).Nodup) := by
  constructor
  · intro sched c ts h1 h2 h3
    have hinv : TasksInv c ts := by
      refine ⟨h1, h2, ?_⟩
      intro t ht hge hle
      rw [h3 t ht] at hge
      exact absurd hge (by norm_num)
    exact (runSched_inv env sched c ts hinv).1
  · intro c files
    induction files generalizing c with
    | nil => intro hs hm; exact ⟨hs, hm⟩
    | cons f fs ih =>
      intro hs hm
      simp only [scanFiles]
      exact ih (processFile env c f).1
        (processFile_titles_nodup env c f hs)
        (processFile_fps_nodup env c f hm)

/-- Claim C1, witness for the amended theorem: the racing schedule of the
counterexample still leaves the media filepaths duplicate-free, and a
sequential scan of a fresh series episode keeps both tables
duplicate-free. -/
theorem claim1_amended_witness :
    ((runSched sampleEnvNoMatch [0, 1, 0, 1, 0, 1, 0, 1] {}
        [raceTask0, raceTask1]).1.media.map (·.filepath)).Nodup ∧
    (((scanFiles sampleEnvNoMatch {}
        ["/mnt/nas/Homeflix/Series/ShowY/Season 1/E01.mp4"]).1.series.map
          (·.title)).Nodup ∧
     ((scanFiles sampleEnvNoMatch {}
        ["/mnt/nas/Homeflix/Series/ShowY/Season 1/E01.mp4"]).1.media.map
          (·.filepath)).Nodup) :=
  ⟨(claim1_amended sampleEnvNoMatch).1 [0, 1, 0, 1, 0, 1, 0, 1] {}
      [raceTask0, raceTask1] (by decide) (by decide) (by decide),
   (claim1_amended sampleEnvNoMatch).2 {}
      ["/mnt/nas/Homeflix/Series/ShowY/Season 1/E01.mp4"]
      (by decide) (by decide)⟩

end RaspiMedia
